import Mathlib

/-!
Shallow embedding of the `enum_gen` procedural-macro crate (src/lib.rs) and
verification of the spec's claims about it.

Modelling conventions:
* Token streams that the code treats as opaque (function bodies, literal
  strings of tokens) are modelled as `String`s or small token inductives.
* `panic!`/`expect` aborts become `Except GenError` results; the error
  constructor is chosen following the spec's error taxonomy
  (SyntaxError / SchemaError / UnsupportedError).
* The process-wide `CACHE` (a `Mutex<GlobalState>`) is modelled as explicit
  state passing of a `GlobalState` value; the model is single-threaded, so
  lock acquisition always succeeds and the corresponding
  "Internal chache is corrupted" panic branch is unreachable in the model.
* `HashMap<String, _>` is modelled as an association list with
  lookup / insert-returning-previous / remove operations; only
  lookup-observable behaviour matters.
-/

set_option autoImplicit false

namespace EnumGen

/-- Error taxonomy from the spec (section 7); the Rust code raises each of
these as a `panic!` with the recorded message. -/
inductive GenError where
  | SchemaError : String → GenError
  | SyntaxError : String → GenError
  | UnsupportedError : String → GenError
deriving DecidableEq, Repr

/-- Decidable equality for `Except` results (used to evaluate the model on
concrete inputs). -/
instance {ε α : Type} [DecidableEq ε] [DecidableEq α] : DecidableEq (Except ε α) :=
  fun x y =>
    match x, y with
    | .error e, .error e' =>
      if h : e = e' then isTrue (by rw [h])
      else isFalse (by intro hc; cases hc; exact h rfl)
    | .ok a, .ok a' =>
      if h : a = a' then isTrue (by rw [h])
      else isFalse (by intro hc; cases hc; exact h rfl)
    | .error _, .ok _ => isFalse (by intro hc; cases hc)
    | .ok _, .error _ => isFalse (by intro hc; cases hc)

/-- Digit value of a character in the given radix (as accepted by Rust's
`usize::from_str_radix`). -/
def digitVal? (radix : Nat) (c : Char) : Option Nat :=
  let v : Option Nat :=
    if '0' ≤ c ∧ c ≤ '9' then some (c.toNat - '0'.toNat)
    else if 'a' ≤ c ∧ c ≤ 'z' then some (c.toNat - 'a'.toNat + 10)
    else if 'A' ≤ c ∧ c ≤ 'Z' then some (c.toNat - 'A'.toNat + 10)
    else none
  match v with
  | some d => if d < radix then some d else none
  | none => none

/-- Model of Rust's `usize::from_str_radix` on the character list of the
input: an optional leading `+`, then a non-empty run of digits of the
radix. (Numeric overflow of `usize` is not modelled; no claim depends on
it.) -/
def fromStrRadix (radix : Nat) (cs0 : List Char) : Option Nat :=
  let cs := match cs0 with
    | '+' :: rest => rest
    | _ => cs0
  if cs.isEmpty then none
  else cs.foldl (fun acc c => acc.bind fun n => (digitVal? radix c).map
    fun d => n * radix + d) (some 0)

/-- `parse_int` from src/lib.rs: strip a leading `0x` and parse as
hexadecimal, otherwise parse as decimal. -/
def parse_int (s : String) : Option Nat :=
  match s.data with
  | '0' :: 'x' :: rest => fromStrRadix 16 rest
  | cs => fromStrRadix 10 cs

/-- `EnumVariantId`: a regular numeric match case or the default (`_`)
case. -/
inductive EnumVariantId where
  | Val : Nat → EnumVariantId
  | Default : EnumVariantId
deriving DecidableEq, Repr

/-- `matches!(id, EnumVariantId::Default)` as used by the matcher's filter. -/
def EnumVariantId.isDefault : EnumVariantId → Bool
  | .Default => true
  | .Val _ => false

/-- `EnumVariantRef`: variant data saved in the global cache. -/
structure EnumVariantRef where
  id : EnumVariantId
  name : String
deriving DecidableEq, Repr

/-- `EnumRef`: saved data about a generated enum. -/
structure EnumRef where
  name : String
  variants : List EnumVariantRef
deriving DecidableEq, Repr

/-- A `syn::Field`: field attributes, visibility, name and type, each kept
as an opaque string of tokens. -/
structure FieldDef where
  attrs : List String
  vis : String
  name : String
  ty : String
deriving DecidableEq, Repr

/-- One token inside an attribute's argument list (`proc_macro2::TokenTree`,
restricted to what the attribute scanner distinguishes). For `group`, the
stored string is the token's `to_string()` rendering. -/
inductive AttrTok where
  | ident : String → AttrTok
  | punct : Char → AttrTok
  | lit : String → AttrTok
  | group : String → AttrTok
deriving DecidableEq, Repr

/-- `TokenTree::to_string()` of an attribute token. -/
def AttrTok.str : AttrTok → String
  | .ident s => s
  | .punct c => String.singleton c
  | .lit s => s
  | .group s => s

/-- A variant-level attribute (`syn::Meta`). `list p ts` is `Meta::List`
with path `p` (a list of path segments) and argument tokens `ts`; every
other meta shape is opaque. -/
inductive VMeta where
  | list : List String → List AttrTok → VMeta
  | other : String → VMeta
deriving DecidableEq, Repr

/-- A `syn::Variant` of the input enum as received by `enum_gen`. -/
structure SynVariant where
  ident : String
  attrs : List VMeta
  fields : List FieldDef
deriving DecidableEq, Repr

/-- `EnumVariant`: variant extracted from the original enum. -/
structure EnumVariant where
  id : EnumVariantId
  name : String
  fields : List FieldDef
deriving DecidableEq, Repr

/-- `attrs.iter().position(matches Meta::List with single-ident path "attr")`
followed by `attrs.remove(idx)`: returns the argument tokens of the first
`attr(...)` meta together with the remaining attributes in order. -/
def extractAttr : List VMeta → Option (List AttrTok × List VMeta)
  | [] => none
  | .list p ts :: rest =>
    if p = ["attr"] then some (ts, rest)
    else (extractAttr rest).map fun x => (x.1, .list p ts :: x.2)
  | .other s :: rest => (extractAttr rest).map fun x => (x.1, .other s :: x.2)

/-- The token-scanning loop inside `TryFrom<Variant> for EnumVariant`:
walks the `attr(...)` argument tokens, skipping non-identifier tokens,
handling `ID = <value>` (a later `ID` overwrites an earlier one) and
aborting on any other identifier. `expect_punct_token` failures and a
missing value token are `SyntaxError`s; a non-numeric, non-wildcard value
is a `SchemaError`. -/
def parseAttrTokens : List AttrTok → Option EnumVariantId →
    Except GenError (Option EnumVariantId)
  | [], acc => .ok acc
  | .ident s :: rest, _acc =>
    if s = "ID" then
      match rest with
      | .punct c :: rest' =>
        if c = '=' then
          match rest' with
          | value :: rest'' =>
            match value with
            | .ident v =>
              if v = "_" then parseAttrTokens rest'' (some .Default)
              else
                match parse_int v with
                | some n => parseAttrTokens rest'' (some (.Val n))
                | none =>
                  .error (.SchemaError "Invalid ID attribute. Expected a number")
            | _ =>
              match parse_int value.str with
              | some n => parseAttrTokens rest'' (some (.Val n))
              | none =>
                .error (.SchemaError "Invalid ID attribute. Expected a number")
          | [] => .error (.SyntaxError "Unknown attr syntax. Expected ID = 0x42")
        else .error (.SyntaxError "Unknown parse_fn syntax. Expected parse_fn = my_fn")
      | _ => .error (.SyntaxError "parse_fn param should be followed by = my_fn")
    else .error (.SchemaError ("Unknown attribute " ++ s))
  | _ :: rest, acc => parseAttrTokens rest acc

/-- `TryFrom<Variant> for EnumVariant` (src/lib.rs lines 198-277). Note the
order of checks, taken from the source: locate and remove the `attr` meta,
scan its tokens, then reject the variant if **more than one** other
attribute remains, and finally require that an `ID` was assigned. -/
def EnumVariant.tryFrom (variant : SynVariant) : Except GenError EnumVariant :=
  match extractAttr variant.attrs with
  | none =>
    .error (.SchemaError
      "Each enum variant needs to be have an attr attribute. attr(ID = 0x42)")
  | some (tokens, remaining) =>
    match parseAttrTokens tokens none with
    | .error e => .error e
    | .ok idOpt =>
      if remaining.length > 1 then
        .error (.UnsupportedError "Currently additional variant attributes are not supported")
      else
        match idOpt with
        | none =>
          .error (.SchemaError
            "Missing ID identifier. Each enum variant needs to be assigned an ID")
        | some id => .ok { id := id, name := variant.ident, fields := variant.fields }

/-- `Iterator::collect::<Result<Vec<_>, _>>()`: collect results, stopping at
the first error. -/
def collectResults {α β : Type} (f : α → Except GenError β) :
    List α → Except GenError (List β)
  | [] => .ok []
  | a :: rest =>
    match f a with
    | .error e => .error e
    | .ok b =>
      match collectResults f rest with
      | .error e => .error e
      | .ok bs => .ok (b :: bs)

/-- The variant-organizing pass of `enum_gen` (src/lib.rs lines 429-439):
each field's visibility is overwritten with the enum's visibility, then the
variant is converted with `EnumVariant.tryFrom`; the first failure aborts. -/
def parseVariants (enum_vis : String) (raws : List SynVariant) :
    Except GenError (List EnumVariant) :=
  collectResults
    (fun variant => EnumVariant.tryFrom
      { variant with fields := variant.fields.map fun f => { f with vis := enum_vis } })
    raws

/-- `EnumMatchType`: match by the `id` function parameter, or by `self`. -/
inductive EnumMatchType where
  | Id : EnumMatchType
  | Variant : EnumMatchType
deriving DecidableEq, Repr

/-- The pattern of one generated match arm.
`byId i` renders as `<i> =>` (so `byId .Default` is the `_ =>` catch-all);
`byVariant e n` renders as `<e>::<n>(inner) =>`, a structural pattern on
the variant's record type that binds the payload to the local name
`inner`. -/
inductive ArmPattern where
  | byId : EnumVariantId → ArmPattern
  | byVariant : String → String → ArmPattern
deriving DecidableEq, Repr

/-- One generated match arm: its pattern, the two `use ... as` alias
bindings (`use <useStructType> as EnumStructType` and
`use <useVariantType.1>::<useVariantType.2> as EnumVariantType`), and the
verbatim copy of the function body (the `case` token stream). -/
structure MatchArm where
  pattern : ArmPattern
  useStructType : String
  useVariantType : String × String
  body : String
deriving DecidableEq, Repr

/-- `EnumVariantMatch::to_tokens` (src/lib.rs lines 122-148): builds one
match arm for one variant. -/
def EnumVariantMatch.toTokens (match_by : EnumMatchType) (enum_name : String)
    (variant : EnumVariantRef) (case : String) : MatchArm :=
  match match_by with
  | .Id =>
    { pattern := .byId variant.id
      useStructType := variant.name
      useVariantType := (enum_name, variant.name)
      body := case }
  | .Variant =>
    { pattern := .byVariant enum_name variant.name
      useStructType := variant.name
      useVariantType := (enum_name, variant.name)
      body := case }

/-- Panic message for a variant list with no default variant. -/
def missingDefaultMsg : String :=
  "Default variant must be defined. E.g: attr(ID = _) Unknown"

/-- Panic message for a variant list with several default variants. -/
def onlyOneDefaultMsg : String :=
  "Only one variant with default ID (_) can be defined."

/-- `EnumVariantMatcher::to_tokens` (src/lib.rs lines 157-196): takes the
first variant whose id is `Default` (panicking if there is none, or if a
second one exists), then emits one arm per non-default variant in
declaration order, followed by the arm of the default variant. The two
panics are `SchemaError`s in the spec's taxonomy. -/
def EnumVariantMatcher.toTokens (match_by : EnumMatchType) (enum_name : String)
    (variants : List EnumVariantRef) (case : String) :
    Except GenError (List MatchArm) :=
  match variants.filter (fun v => v.id.isDefault) with
  | [] => .error (.SchemaError missingDefaultMsg)
  | [default_variant] =>
    .ok ((variants.filter (fun v => !v.id.isDefault)).map
          (fun v => EnumVariantMatch.toTokens match_by enum_name v case)
        ++ [EnumVariantMatch.toTokens match_by enum_name default_variant case])
  | _ :: _ :: _ => .error (.SchemaError onlyOneDefaultMsg)

/-- A top-level token of the stringified function passed to
`enum_gen_match_id` / `enum_gen_match_self`: a `Group` (stored as its inner
stream) or any other token tree (opaque). The Rust code stores the function
as a string and re-parses it; the round trip is modelled as the identity on
this token list. -/
inductive Tok where
  | group : String → Tok
  | other : String → Tok
deriving DecidableEq, Repr

/-- `EnumMatchFn`: a parsed `enum_gen_match[_id]` invocation, possibly
stored in the global state. -/
structure EnumMatchFn where
  match_by : EnumMatchType
  fn_str : List Tok
deriving DecidableEq, Repr

/-- Output of `enum_gen_match_with_enum`:
`#(#tokens)* { match #match_by { #variant_matcher } }` — the function
tokens minus the original body, the match scrutinee (`id` or `self`), and
the generated arms. -/
structure MatchFnOutput where
  header : List Tok
  scrutinee : EnumMatchType
  arms : List MatchArm
deriving DecidableEq, Repr

/-- `enum_gen_match_with_enum` (src/lib.rs lines 532-569): pops the last
token of the function, which must be a group (the function body), runs the
matcher on it and rebuilds the function around the match expression.
A function without a trailing body group is a `SyntaxError`. -/
def enum_gen_match_with_enum (enumref : EnumRef) (enum_match_fn : EnumMatchFn) :
    Except GenError MatchFnOutput :=
  match enum_match_fn.fn_str.getLast? with
  | some (.group body) =>
    match EnumVariantMatcher.toTokens enum_match_fn.match_by enumref.name
        enumref.variants body with
    | .error e => .error e
    | .ok arms =>
      .ok { header := enum_match_fn.fn_str.dropLast
            scrutinee := enum_match_fn.match_by
            arms := arms }
  | _ =>
    .error (.SyntaxError
      "enum_gen_match has to be used on function definition")

/-- Association-list lookup (models `HashMap::get`). -/
def assocLookup {α : Type} : List (String × α) → String → Option α
  | [], _ => none
  | (k', v) :: rest, k => if k' = k then some v else assocLookup rest k

/-- Association-list insert returning the previous value (models
`HashMap::insert`). -/
def assocInsert {α : Type} : List (String × α) → String → α →
    Option α × List (String × α)
  | [], k, v => (none, [(k, v)])
  | (k', v') :: rest, k, v =>
    if k' = k then (some v', (k, v) :: rest)
    else
      let r := assocInsert rest k v
      (r.1, (k', v') :: r.2)

/-- Association-list removal returning the removed value (models
`HashMap::remove`). -/
def assocRemove {α : Type} : List (String × α) → String →
    Option α × List (String × α)
  | [], _ => (none, [])
  | (k', v') :: rest, k =>
    if k' = k then (some v', rest)
    else
      let r := assocRemove rest k
      (r.1, (k', v') :: r.2)

/-- `entry(k).or_insert(Vec::new()).push(x)`: append `x` to the queue at
key `k`, creating the queue if absent (FIFO order). -/
def assocPush {α : Type} : List (String × List α) → String → α →
    List (String × List α)
  | [], k, x => [(k, [x])]
  | (k', xs) :: rest, k, x =>
    if k' = k then (k', xs ++ [x]) :: rest
    else (k', xs) :: assocPush rest k x

/-- `GlobalState`: the process-wide cache shared between `enum_gen` and the
match macros. -/
structure GlobalState where
  enums : List (String × EnumRef)
  pending_match_fns : List (String × List EnumMatchFn)
deriving DecidableEq, Repr

/-- `process_match_fn` (src/lib.rs lines 571-591): if the enum is already
registered, expand immediately and return the generated function
(`some out`); otherwise queue the request and return the empty token stream
(`none`). -/
def process_match_fn (enum_name : String) (enum_match_fn : EnumMatchFn)
    (st : GlobalState) : Except GenError (Option MatchFnOutput × GlobalState) :=
  if enum_name = "" then
    .error (.SyntaxError "Argument is missing. Expected enum_gen_match(MyEnumName)")
  else
    match assocLookup st.enums enum_name with
    | some enumref =>
      match enum_gen_match_with_enum enumref enum_match_fn with
      | .error e => .error e
      | .ok out => .ok (some out, st)
    | none =>
      .ok (none, { st with
        pending_match_fns := assocPush st.pending_match_fns enum_name enum_match_fn })

/-- `enum_gen_match_id` (src/lib.rs lines 647-660). -/
def enum_gen_match_id (enum_name : String) (input : List Tok) (st : GlobalState) :
    Except GenError (Option MatchFnOutput × GlobalState) :=
  process_match_fn enum_name { match_by := .Id, fn_str := input } st

/-- `enum_gen_match_self` (src/lib.rs lines 715-728). -/
def enum_gen_match_self (enum_name : String) (input : List Tok) (st : GlobalState) :
    Except GenError (Option MatchFnOutput × GlobalState) :=
  process_match_fn enum_name { match_by := .Variant, fn_str := input } st

/-- An argument to `#[enum_gen(...)]`, forwarded 1:1 to every generated
struct: an identifier with an optional argument group (e.g. `derive(Debug)`
or bare `no_mangle`). -/
structure EnumAttribute where
  ident : String
  group : Option String
deriving DecidableEq, Repr

/-- A generated standalone struct: the forwarded attribute list, the enum's
visibility, the struct name (= variant name) and the variant's fields. -/
structure StructDef where
  attrs : List EnumAttribute
  vis : String
  name : String
  fields : List FieldDef
deriving DecidableEq, Repr

/-- A generated `impl <typeName> { pub const ID: usize = <idVal>; }`. -/
structure ImplConst where
  typeName : String
  idVal : Nat
deriving DecidableEq, Repr

/-- The re-created enum: original attributes and visibility, and one
alternative `<name>(<name>)` per variant wrapping its generated struct. -/
structure EnumDefOut where
  attrs : List String
  vis : String
  name : String
  alternatives : List String
deriving DecidableEq, Repr

/-- The struct-emission part of `enum_gen`'s per-variant loop
(src/lib.rs lines 466-475): one struct per variant, carrying the macro's
attribute arguments, the enum's visibility and the variant's fields. -/
def genStructs (struct_attrs : List EnumAttribute) (enum_vis : String)
    (variants : List EnumVariant) : List StructDef :=
  variants.map fun v =>
    { attrs := struct_attrs, vis := enum_vis, name := v.name, fields := v.fields }

/-- The const-emission part of `enum_gen`'s per-variant loop
(src/lib.rs lines 477-483): an `ID` constant for every `Val` variant,
nothing for the `Default` variant. -/
def genConsts (variants : List EnumVariant) : List ImplConst :=
  variants.filterMap fun v =>
    match v.id with
    | .Val n => some { typeName := v.name, idVal := n }
    | .Default => none

/-- Everything `enum_gen` produces for one invocation. `enumDef`, `structs`
and `consts` together model the returned `ret_stream`. `variants` is the
organized variant list the stream is generated from (also saved, as an
`EnumRef`, in the global cache). `flushed` records the token stream computed
by each `enum_gen_match_with_enum` call made while draining the pending
queue: in the source the returned stream of each such call is dropped on
the floor (lines 514-516 call the function and ignore its result), so these
streams are *not* part of `ret_stream`; they are recorded here to model the
Matcher invocations themselves. -/
structure EnumGenOutput where
  enumDef : EnumDefOut
  structs : List StructDef
  consts : List ImplConst
  variants : List EnumVariant
  flushed : List MatchFnOutput
deriving DecidableEq, Repr

/-- The pending-queue drain loop of `enum_gen` (src/lib.rs lines 514-516):
expand each queued match fn in FIFO order; a panic inside an expansion
aborts the remaining ones. -/
def flushPending (enumref : EnumRef) :
    List EnumMatchFn → Except GenError (List MatchFnOutput)
  | [] => .ok []
  | f :: rest =>
    match enum_gen_match_with_enum enumref f with
    | .error e => .error e
    | .ok out =>
      match flushPending enumref rest with
      | .error e => .error e
      | .ok outs => .ok (out :: outs)

/-- Panic message for registering an already-registered enum name. -/
def conflictMsg : String :=
  "Enum name conflict! Consider using a different unique name, then create an alias to desired name"

/-- `enum_gen` (src/lib.rs lines 410-523), from the point where the input
has been parsed by `syn` into visibility, attributes, identifier and
variant list (that parsing, and the parsing of the macro's own arguments
into `EnumGenArgs`, are done by the external `syn`/`proc_macro2`
collaborators and are taken as given here). Returns the macro's result
together with the global state as left behind — the state is returned even
when the macro aborts, because the cache mutation precedes the
duplicate-name panic. The source re-reads the just-inserted `EnumRef` with
`cache.enums.get(..).unwrap()` before flushing; `assocInsert` stores
exactly `enumref`, so the model uses `enumref` directly. -/
def enum_gen (struct_attrs : List EnumAttribute) (enum_vis : String)
    (enum_attrs : List String) (enum_ident : String)
    (rawVariants : List SynVariant) (st : GlobalState) :
    Except GenError EnumGenOutput × GlobalState :=
  match parseVariants enum_vis rawVariants with
  | .error e => (.error e, st)
  | .ok variants =>
    let enumDef : EnumDefOut :=
      { attrs := enum_attrs, vis := enum_vis, name := enum_ident
        alternatives := variants.map fun v => v.name }
    let structs := genStructs struct_attrs enum_vis variants
    let consts := genConsts variants
    let enumref : EnumRef :=
      { name := enum_ident
        variants := variants.map fun v => { id := v.id, name := v.name } }
    let ins := assocInsert st.enums enum_ident enumref
    if ins.1.isSome then
      (.error (.SchemaError conflictMsg), { st with enums := ins.2 })
    else
      match assocRemove st.pending_match_fns enum_ident with
      | (none, pending') =>
        (.ok { enumDef := enumDef, structs := structs, consts := consts
               variants := variants, flushed := [] },
         { enums := ins.2, pending_match_fns := pending' })
      | (some fns, pending') =>
        match flushPending enumref fns with
        | .error e => (.error e, { enums := ins.2, pending_match_fns := pending' })
        | .ok outs =>
          (.ok { enumDef := enumDef, structs := structs, consts := consts
                 variants := variants, flushed := outs },
           { enums := ins.2, pending_match_fns := pending' })

/-! ## Helper lemmas -/

/-- The previous value reported by `assocInsert` is the looked-up value. -/
theorem assocInsert_fst {α : Type} (l : List (String × α)) (k : String) (v : α) :
    (assocInsert l k v).1 = assocLookup l k := by
  induction l with
  | nil => rfl
  | cons p rest ih =>
    obtain ⟨k', v'⟩ := p
    by_cases hk : k' = k
    · simp [assocInsert, assocLookup, hk]
    · simp [assocInsert, assocLookup, hk, ih]

/-- After an insert, looking up the inserted key yields the new value. -/
theorem assocLookup_insert_self {α : Type} (l : List (String × α)) (k : String)
    (v : α) : assocLookup (assocInsert l k v).2 k = some v := by
  induction l with
  | nil => simp [assocInsert, assocLookup]
  | cons p rest ih =>
    obtain ⟨k', v'⟩ := p
    by_cases hk : k' = k
    · simp [assocInsert, assocLookup, hk]
    · simp [assocInsert, assocLookup, hk, ih]

/-- Removing an absent key leaves the association list unchanged. -/
theorem assocRemove_none {α : Type} (l : List (String × α)) (k : String)
    (h : assocLookup l k = none) : assocRemove l k = (none, l) := by
  induction l with
  | nil => rfl
  | cons p rest ih =>
    obtain ⟨k', v'⟩ := p
    by_cases hk : k' = k
    · rw [assocLookup, if_pos hk] at h; cases h
    · rw [assocLookup, if_neg hk] at h
      simp [assocRemove, hk, ih h]

/-- A successful `collectResults` has one output per input, each produced by
`f` on the corresponding input. -/
theorem collectResults_ok {α β : Type} (f : α → Except GenError β) :
    ∀ (l : List α) (l' : List β), collectResults f l = .ok l' →
      l'.length = l.length ∧
      ∀ i (hi : i < l.length) (hi' : i < l'.length),
        f (l.get ⟨i, hi⟩) = .ok (l'.get ⟨i, hi'⟩) := by
  intro l
  induction l with
  | nil =>
    intro l' h
    simp only [collectResults] at h
    injection h with h
    subst h
    exact ⟨rfl, fun i hi _ => absurd hi (Nat.not_lt_zero i)⟩
  | cons a rest ih =>
    intro l' h
    simp only [collectResults] at h
    cases hfa : f a with
    | error e => rw [hfa] at h; cases h
    | ok b =>
      rw [hfa] at h
      cases hrest : collectResults f rest with
      | error e => rw [hrest] at h; cases h
      | ok bs =>
        rw [hrest] at h
        injection h with h
        subst h
        obtain ⟨ihlen, ihget⟩ := ih bs hrest
        refine ⟨by simp [ihlen], ?_⟩
        intro i hi hi'
        match i with
        | 0 => exact hfa
        | n + 1 =>
          exact ihget n (Nat.lt_of_succ_lt_succ hi) (Nat.lt_of_succ_lt_succ hi')

/-- A successfully converted variant keeps its name and its field list. -/
theorem tryFrom_ok_shape (v : SynVariant) (ev : EnumVariant)
    (h : EnumVariant.tryFrom v = .ok ev) :
    ev.name = v.ident ∧ ev.fields = v.fields := by
  unfold EnumVariant.tryFrom at h
  split at h
  · cases h
  · split at h
    · cases h
    · split at h
      · cases h
      · split at h
        · cases h
        · injection h with h
          subst h
          exact ⟨rfl, rfl⟩

/-- `isDefault` on a numeric id. -/
theorem isDefault_Val (n : Nat) : (EnumVariantId.Val n).isDefault = false := rfl

/-- `isDefault` on the default id. -/
theorem isDefault_Default : EnumVariantId.Default.isDefault = true := rfl

/-- Constants and default variants partition the variant list:
`genConsts` emits one constant per non-default variant. -/
theorem genConsts_length_add (l : List EnumVariant) :
    (genConsts l).length + (l.filter fun v => v.id.isDefault).length = l.length := by
  induction l with
  | nil => rfl
  | cons v rest ih =>
    simp only [genConsts] at ih ⊢
    rcases hv : v.id with n | _ <;>
      simp [List.filterMap_cons, List.filter_cons, hv, isDefault_Val, isDefault_Default] <;>
      omega

/-- Registering a fresh name with no pending requests succeeds whenever the
per-variant parse succeeds, whatever the parsed discriminants are. -/
theorem enum_gen_fresh_ok (struct_attrs : List EnumAttribute)
    (vis : String) (eattrs : List String) (ename : String)
    (raws : List SynVariant) (st : GlobalState) (parsed : List EnumVariant)
    (hp : parseVariants vis raws = .ok parsed)
    (hfresh : assocLookup st.enums ename = none)
    (hpend : assocLookup st.pending_match_fns ename = none) :
    enum_gen struct_attrs vis eattrs ename raws st =
      (.ok { enumDef := { attrs := eattrs, vis := vis, name := ename
                          alternatives := parsed.map EnumVariant.name }
             structs := genStructs struct_attrs vis parsed
             consts := genConsts parsed
             variants := parsed
             flushed := [] },
       { enums := (assocInsert st.enums ename
            { name := ename
              variants := parsed.map fun v => { id := v.id, name := v.name } }).2
         pending_match_fns := st.pending_match_fns }) := by
  simp only [enum_gen, hp]
  rw [assocInsert_fst, hfresh]
  rw [assocRemove_none _ _ hpend]
  simp

/-- Re-registering an already-registered name aborts with the name-conflict
SchemaError, *after* the cache entry has been replaced with the new
`EnumRef`. -/
theorem enum_gen_dup (struct_attrs : List EnumAttribute)
    (vis : String) (eattrs : List String) (ename : String)
    (raws : List SynVariant) (st : GlobalState) (parsed : List EnumVariant)
    (old : EnumRef)
    (hp : parseVariants vis raws = .ok parsed)
    (hdup : assocLookup st.enums ename = some old) :
    enum_gen struct_attrs vis eattrs ename raws st =
      (.error (.SchemaError conflictMsg),
       { st with enums := (assocInsert st.enums ename
           { name := ename
             variants := parsed.map fun v => { id := v.id, name := v.name } }).2 }) := by
  simp only [enum_gen, hp]
  rw [assocInsert_fst, hdup]
  rfl

/-! ## Claim theorems -/

/-- C2 counterexample: the spec's own example `A: ID=1, B: ID=1` (plus the
mandatory wildcard case) does *not* fail — registering it in an empty
registry succeeds, so no SchemaError about a duplicate discriminant is
raised by the generation pass. -/
theorem duplicate_discriminant_cex :
    (enum_gen [] "" [] "P"
      [⟨"A", [.list ["attr"] [.ident "ID", .punct '=', .lit "1"]], []⟩,
       ⟨"B", [.list ["attr"] [.ident "ID", .punct '=', .lit "1"]], []⟩,
       ⟨"C", [.list ["attr"] [.ident "ID", .punct '=', .ident "_"]], []⟩]
      ⟨[], []⟩).1.isOk = true := by decide

/-- C2 amended: discriminant uniqueness is never checked. A union whose
cases carry the same `Value` discriminant twice generates successfully:
`ByDiscriminant` dispatch emits both arms keyed by the same integer in
declaration order (the second one is simply unreachable generated code),
and registration succeeds for *any* parseable case list — success never
depends on the parsed discriminants — provided the name is fresh and no
pending dispatch is queued under it. -/
theorem duplicate_discriminant_not_checked :
    (∀ (ename a b c body : String) (n : Nat),
      EnumVariantMatcher.toTokens .Id ename
          [⟨.Val n, a⟩, ⟨.Val n, b⟩, ⟨.Default, c⟩] body =
        .ok [{ pattern := .byId (.Val n), useStructType := a,
               useVariantType := (ename, a), body := body },
             { pattern := .byId (.Val n), useStructType := b,
               useVariantType := (ename, b), body := body },
             { pattern := .byId .Default, useStructType := c,
               useVariantType := (ename, c), body := body }]) ∧
    (∀ (struct_attrs : List EnumAttribute) (vis : String) (eattrs : List String)
       (ename : String) (raws : List SynVariant) (st : GlobalState)
       (parsed : List EnumVariant),
      parseVariants vis raws = .ok parsed →
      assocLookup st.enums ename = none →
      assocLookup st.pending_match_fns ename = none →
      (enum_gen struct_attrs vis eattrs ename raws st).1.isOk = true) := by
  constructor
  · intro ename a b c body n
    rfl
  · intro struct_attrs vis eattrs ename raws st parsed hp hfresh hpend
    rw [enum_gen_fresh_ok struct_attrs vis eattrs ename raws st parsed hp hfresh hpend]
    rfl

/-- C2 witness: both halves of the amended claim evaluated on the spec's
duplicate example `A: ID=1, B: ID=1, C: ID=_`. -/
theorem duplicate_discriminant_not_checked_witness :
    EnumVariantMatcher.toTokens .Id "P"
        [⟨.Val 1, "A"⟩, ⟨.Val 1, "B"⟩, ⟨.Default, "C"⟩] "b" =
      .ok [{ pattern := .byId (.Val 1), useStructType := "A",
             useVariantType := ("P", "A"), body := "b" },
           { pattern := .byId (.Val 1), useStructType := "B",
             useVariantType := ("P", "B"), body := "b" },
           { pattern := .byId .Default, useStructType := "C",
             useVariantType := ("P", "C"), body := "b" }] ∧
    (enum_gen [] "" [] "P"
      [⟨"A", [.list ["attr"] [.ident "ID", .punct '=', .lit "1"]], []⟩,
       ⟨"B", [.list ["attr"] [.ident "ID", .punct '=', .lit "1"]], []⟩,
       ⟨"C", [.list ["attr"] [.ident "ID", .punct '=', .ident "_"]], []⟩]
      ⟨[], []⟩).1.isOk = true :=
  ⟨duplicate_discriminant_not_checked.1 "P" "A" "B" "C" "b" 1,
   duplicate_discriminant_not_checked.2 [] "" [] "P"
     [⟨"A", [.list ["attr"] [.ident "ID", .punct '=', .lit "1"]], []⟩,
      ⟨"B", [.list ["attr"] [.ident "ID", .punct '=', .lit "1"]], []⟩,
      ⟨"C", [.list ["attr"] [.ident "ID", .punct '=', .ident "_"]], []⟩]
     ⟨[], []⟩
     [{ id := .Val 1, name := "A", fields := [] },
      { id := .Val 1, name := "B", fields := [] },
      { id := .Default, name := "C", fields := [] }]
     (by decide) (by decide) (by decide)⟩

/-- C3 counterexample: a union with zero wildcard cases (`A: ID=1,
B: ID=2`) registers successfully in an empty registry — no "missing
default" SchemaError is raised at definition time. -/
theorem zero_wildcard_registration_ok :
    (enum_gen [] "" [] "P"
      [⟨"A", [.list ["attr"] [.ident "ID", .punct '=', .lit "1"]], []⟩,
       ⟨"B", [.list ["attr"] [.ident "ID", .punct '=', .lit "2"]], []⟩]
      ⟨[], []⟩).1.isOk = true := by decide

/-- C3 amended: the wildcard-count check lives in the Matcher, not in the
union-definition step. Expanding any dispatch request over a case list with
zero wildcard cases fails with the "missing default" SchemaError, and over
a case list with two or more wildcards with the "only one default"
SchemaError; but registration itself performs no wildcard check — with a
fresh name and no pending dispatch requests, `enum_gen` succeeds whatever
the wildcard count is. (When a pending dispatch *is* queued, registration
does abort, because the flush invokes the Matcher.) -/
theorem wildcard_count_checked_by_matcher :
    (∀ (mb : EnumMatchType) (ename body : String)
       (variants : List EnumVariantRef),
      variants.filter (fun v => v.id.isDefault) = [] →
      EnumVariantMatcher.toTokens mb ename variants body =
        .error (.SchemaError missingDefaultMsg)) ∧
    (∀ (mb : EnumMatchType) (ename body : String)
       (variants : List EnumVariantRef) (d1 d2 : EnumVariantRef)
       (rest : List EnumVariantRef),
      variants.filter (fun v => v.id.isDefault) = d1 :: d2 :: rest →
      EnumVariantMatcher.toTokens mb ename variants body =
        .error (.SchemaError onlyOneDefaultMsg)) ∧
    (∀ (struct_attrs : List EnumAttribute) (vis : String) (eattrs : List String)
       (ename : String) (raws : List SynVariant) (st : GlobalState)
       (parsed : List EnumVariant),
      parseVariants vis raws = .ok parsed →
      assocLookup st.enums ename = none →
      assocLookup st.pending_match_fns ename = none →
      (enum_gen struct_attrs vis eattrs ename raws st).1.isOk = true) := by
  refine ⟨?_, ?_, ?_⟩
  · intro mb ename body variants h
    simp only [EnumVariantMatcher.toTokens, h]
  · intro mb ename body variants d1 d2 rest h
    simp only [EnumVariantMatcher.toTokens, h]
  · intro struct_attrs vis eattrs ename raws st parsed hp hfresh hpend
    rw [enum_gen_fresh_ok struct_attrs vis eattrs ename raws st parsed hp hfresh hpend]
    rfl

/-- C3 witness: the three parts of the amended claim on concrete inputs —
a wildcard-free list rejected by the Matcher, a two-wildcard list
rejected by the Matcher, and the wildcard-free union registering
successfully. -/
theorem wildcard_count_checked_by_matcher_witness :
    EnumVariantMatcher.toTokens .Id "P" [⟨.Val 1, "A"⟩] "b" =
      .error (.SchemaError missingDefaultMsg) ∧
    EnumVariantMatcher.toTokens .Id "P" [⟨.Default, "A"⟩, ⟨.Default, "B"⟩] "b" =
      .error (.SchemaError onlyOneDefaultMsg) ∧
    (enum_gen [] "" [] "P"
      [⟨"A", [.list ["attr"] [.ident "ID", .punct '=', .lit "1"]], []⟩]
      ⟨[], []⟩).1.isOk = true :=
  ⟨wildcard_count_checked_by_matcher.1 .Id "P" "b" [⟨.Val 1, "A"⟩] (by decide),
   wildcard_count_checked_by_matcher.2.1 .Id "P" "b"
     [⟨.Default, "A"⟩, ⟨.Default, "B"⟩] ⟨.Default, "A"⟩ ⟨.Default, "B"⟩ []
     (by decide),
   wildcard_count_checked_by_matcher.2.2 [] "" [] "P"
     [⟨"A", [.list ["attr"] [.ident "ID", .punct '=', .lit "1"]], []⟩]
     ⟨[], []⟩ [{ id := .Val 1, name := "A", fields := [] }]
     (by decide) (by decide) (by decide)⟩

/-- C7: in `ByDiscriminant` mode (`enum_gen_match_id`), for a resolved case
list with exactly one wildcard the emitted arms are: every non-wildcard
case in declaration order, each keyed by its own integer discriminant
(`.byId v.id`, with `v.id` a `Val`), followed by the wildcard's `_ =>`
catch-all arm (`.byId .Default`) emitted last regardless of where the
wildcard was declared. -/
theorem byDiscriminant_arm_order (ename body : String)
    (variants : List EnumVariantRef) (d : EnumVariantRef)
    (hone : variants.filter (fun v => v.id.isDefault) = [d]) :
    EnumVariantMatcher.toTokens .Id ename variants body =
      .ok ((variants.filter (fun v => !v.id.isDefault)).map
            (fun v => { pattern := .byId v.id, useStructType := v.name,
                        useVariantType := (ename, v.name), body := body })
          ++ [{ pattern := .byId .Default, useStructType := d.name,
                useVariantType := (ename, d.name), body := body }]) ∧
    ∀ v ∈ variants.filter (fun v => !v.id.isDefault),
      ∃ n, v.id = EnumVariantId.Val n := by
  have hdmem : d ∈ variants.filter (fun v => v.id.isDefault) := by
    rw [hone]; exact List.mem_singleton_self d
  have hdid : d.id = EnumVariantId.Default := by
    have hd := (List.mem_filter.mp hdmem).2
    rcases hdv : d.id with n | _
    · rw [hdv, isDefault_Val] at hd; cases hd
    · rfl
  constructor
  · simp only [EnumVariantMatcher.toTokens, hone]
    simp [EnumVariantMatch.toTokens, hdid]
  · intro v hv
    have hvd := (List.mem_filter.mp hv).2
    rcases hvid : v.id with n | _
    · exact ⟨n, rfl⟩
    · rw [hvid, isDefault_Default] at hvd; cases hvd

/-- C7 witness: the spec's example union `A: ID=1, B: ID=2, C: ID=_`
dispatched `ByDiscriminant` gives arms `1 => A`, `2 => B`, `_ => C`. -/
theorem byDiscriminant_arm_order_witness :
    EnumVariantMatcher.toTokens .Id "P"
        [⟨.Val 1, "A"⟩, ⟨.Val 2, "B"⟩, ⟨.Default, "C"⟩] "b" =
      .ok ((([⟨.Val 1, "A"⟩, ⟨.Val 2, "B"⟩, ⟨.Default, "C"⟩] :
              List EnumVariantRef).filter
              (fun v => !v.id.isDefault)).map
            (fun v => { pattern := .byId v.id, useStructType := v.name,
                        useVariantType := ("P", v.name), body := "b" })
          ++ [{ pattern := .byId .Default, useStructType := "C",
                useVariantType := ("P", "C"), body := "b" }]) ∧
    ∀ v ∈ [(⟨.Val 1, "A"⟩ : EnumVariantRef), ⟨.Val 2, "B"⟩, ⟨.Default, "C"⟩].filter
        (fun v => !v.id.isDefault),
      ∃ n, v.id = EnumVariantId.Val n :=
  byDiscriminant_arm_order "P" "b"
    [⟨.Val 1, "A"⟩, ⟨.Val 2, "B"⟩, ⟨.Default, "C"⟩] ⟨.Default, "C"⟩ (by decide)

/-- C6 counterexample: with the wildcard declared first
(`C: ID=_, A: ID=1`), `ByValue` dispatch does *not* leave the arms in
declaration order — wildcard status still moves the wildcard's arm to the
end, so it is false that wildcard status affects nothing in this mode. -/
theorem byValue_wildcard_reordered_cex :
    EnumVariantMatcher.toTokens .Variant "P" [⟨.Default, "C"⟩, ⟨.Val 1, "A"⟩] "b" ≠
      .ok ([⟨.Default, "C"⟩, ⟨.Val 1, "A"⟩].map
        (fun v => EnumVariantMatch.toTokens .Variant "P" v "b")) := by decide

/-- C6 amended: in `ByValue` mode every case, the wildcard included,
produces a structural arm `Enum::Case(inner)` on its own record type with
the payload bound to `inner`, and no arm is keyed numerically or acts as a
`_` fallback; however, wildcard status does affect arm order — exactly as
in `ByDiscriminant` mode, the wildcard's arm is emitted last regardless of
its declaration position. -/
theorem byValue_arms_structural (ename body : String)
    (variants : List EnumVariantRef) (d : EnumVariantRef)
    (hone : variants.filter (fun v => v.id.isDefault) = [d]) :
    EnumVariantMatcher.toTokens .Variant ename variants body =
      .ok ((variants.filter (fun v => !v.id.isDefault)).map
            (fun v => { pattern := .byVariant ename v.name, useStructType := v.name,
                        useVariantType := (ename, v.name), body := body })
          ++ [{ pattern := .byVariant ename d.name, useStructType := d.name,
                useVariantType := (ename, d.name), body := body }]) ∧
    ∀ arms, EnumVariantMatcher.toTokens .Variant ename variants body = .ok arms →
      ∀ a ∈ arms, ∃ nm, a.pattern = ArmPattern.byVariant ename nm := by
  have hfirst :
      EnumVariantMatcher.toTokens .Variant ename variants body =
        .ok ((variants.filter (fun v => !v.id.isDefault)).map
              (fun v => { pattern := .byVariant ename v.name, useStructType := v.name,
                          useVariantType := (ename, v.name), body := body })
            ++ [{ pattern := .byVariant ename d.name, useStructType := d.name,
                  useVariantType := (ename, d.name), body := body }]) := by
    simp only [EnumVariantMatcher.toTokens, hone]
    simp [EnumVariantMatch.toTokens]
  refine ⟨hfirst, ?_⟩
  intro arms harms a ha
  rw [hfirst] at harms
  injection harms with harms
  subst harms
  rcases List.mem_append.mp ha with hmem | hmem
  · obtain ⟨v, _, hv⟩ := List.mem_map.mp hmem
    exact ⟨v.name, by rw [← hv]⟩
  · rw [List.mem_singleton.mp hmem]
    exact ⟨d.name, rfl⟩

/-- C6 witness: wildcard-first union `C: ID=_, A: ID=1` under `ByValue`:
both arms are structural, with the `C` arm moved last. -/
theorem byValue_arms_structural_witness :
    EnumVariantMatcher.toTokens .Variant "P" [⟨.Default, "C"⟩, ⟨.Val 1, "A"⟩] "b" =
      .ok ((([⟨.Default, "C"⟩, ⟨.Val 1, "A"⟩] :
              List EnumVariantRef).filter (fun v => !v.id.isDefault)).map
            (fun v => { pattern := .byVariant "P" v.name, useStructType := v.name,
                        useVariantType := ("P", v.name), body := "b" })
          ++ [{ pattern := .byVariant "P" "C", useStructType := "C",
                useVariantType := ("P", "C"), body := "b" }]) ∧
    ∀ arms, EnumVariantMatcher.toTokens .Variant "P"
        [⟨.Default, "C"⟩, ⟨.Val 1, "A"⟩] "b" = .ok arms →
      ∀ a ∈ arms, ∃ nm, a.pattern = ArmPattern.byVariant "P" nm :=
  byValue_arms_structural "P" "b" [⟨.Default, "C"⟩, ⟨.Val 1, "A"⟩]
    ⟨.Default, "C"⟩ (by decide)

/-- C5: every generated standalone struct carries the macro's shared
attribute list verbatim and the union's declared visibility, and its fields
are the case's declared fields unchanged — same names, types and
field-level attributes in the same order (each field's visibility being set
to the union's visibility; enum-variant fields carry no declarable
visibility of their own). -/
theorem generated_structs_frame (struct_attrs : List EnumAttribute)
    (vis : String) (raws : List SynVariant) (parsed : List EnumVariant)
    (hp : parseVariants vis raws = .ok parsed) :
    (genStructs struct_attrs vis parsed).length = raws.length ∧
    ∀ i (hi : i < raws.length) (hi' : i < (genStructs struct_attrs vis parsed).length),
      ((genStructs struct_attrs vis parsed).get ⟨i, hi'⟩).attrs = struct_attrs ∧
      ((genStructs struct_attrs vis parsed).get ⟨i, hi'⟩).vis = vis ∧
      ((genStructs struct_attrs vis parsed).get ⟨i, hi'⟩).name =
        (raws.get ⟨i, hi⟩).ident ∧
      ((genStructs struct_attrs vis parsed).get ⟨i, hi'⟩).fields.map FieldDef.name =
        (raws.get ⟨i, hi⟩).fields.map FieldDef.name ∧
      ((genStructs struct_attrs vis parsed).get ⟨i, hi'⟩).fields.map FieldDef.ty =
        (raws.get ⟨i, hi⟩).fields.map FieldDef.ty ∧
      ((genStructs struct_attrs vis parsed).get ⟨i, hi'⟩).fields.map FieldDef.attrs =
        (raws.get ⟨i, hi⟩).fields.map FieldDef.attrs ∧
      ((genStructs struct_attrs vis parsed).get ⟨i, hi'⟩).fields.map FieldDef.vis =
        (raws.get ⟨i, hi⟩).fields.map fun _ => vis := by
  have hp' : collectResults
      (fun variant => EnumVariant.tryFrom
        { variant with fields := variant.fields.map fun f => { f with vis := vis } })
      raws = .ok parsed := hp
  obtain ⟨hlen, hget⟩ := collectResults_ok _ raws parsed hp'
  have hslen : (genStructs struct_attrs vis parsed).length = parsed.length := by
    simp [genStructs]
  refine ⟨by rw [hslen, hlen], ?_⟩
  intro i hi hi'
  have hip : i < parsed.length := by omega
  have hsget : (genStructs struct_attrs vis parsed).get ⟨i, hi'⟩ =
      { attrs := struct_attrs, vis := vis, name := (parsed.get ⟨i, hip⟩).name
        fields := (parsed.get ⟨i, hip⟩).fields } := by
    simp [genStructs, List.get_eq_getElem, List.getElem_map]
  obtain ⟨hname, hfields⟩ := tryFrom_ok_shape _ _ (hget i hi hip)
  rw [hsget]
  refine ⟨rfl, rfl, hname, ?_, ?_, ?_, ?_⟩ <;>
    (rw [hfields]; show (List.map _ _).map _ = _; rw [List.map_map]; rfl)

/-- C5 witness: a one-case union with one field, shared attribute
`derive(Debug)` and visibility `pub`: the generated struct count matches
the raw case count (and the frame facts follow from the main theorem). -/
theorem generated_structs_frame_witness :
    (genStructs [{ ident := "derive", group := some "(Debug)" }] "pub"
      [{ id := .Val 1, name := "A"
         fields := [{ attrs := [], vis := "pub", name := "x", ty := "u8" }] }]).length =
    [({ ident := "A"
        attrs := [.list ["attr"] [.ident "ID", .punct '=', .lit "1"]]
        fields := [{ attrs := [], vis := "", name := "x", ty := "u8" }] } :
      SynVariant)].length :=
  (generated_structs_frame [{ ident := "derive", group := some "(Debug)" }] "pub"
    [{ ident := "A"
       attrs := [.list ["attr"] [.ident "ID", .punct '=', .lit "1"]]
       fields := [{ attrs := [], vis := "", name := "x", ty := "u8" }] }]
    [{ id := .Val 1, name := "A"
       fields := [{ attrs := [], vis := "pub", name := "x", ty := "u8" }] }]
    (by decide)).1

/-- C8: for a parsed case list with exactly one wildcard, the Record
Generator emits exactly one struct per case and exactly one ID constant per
non-wildcard case (N structs, N−1 constants): every `Val n` case gets the
constant `n` on its own record type, and every emitted constant stems from
some `Val` case — the wildcard case contributes none. -/
theorem record_generator_counts (struct_attrs : List EnumAttribute)
    (vis : String) (variants : List EnumVariant)
    (hone : (variants.filter fun v => v.id.isDefault).length = 1) :
    (genStructs struct_attrs vis variants).length = variants.length ∧
    (genConsts variants).length = variants.length - 1 ∧
    (∀ v ∈ variants, ∀ n, v.id = EnumVariantId.Val n →
      ({ typeName := v.name, idVal := n } : ImplConst) ∈ genConsts variants) ∧
    (∀ c ∈ genConsts variants,
      ∃ v, v ∈ variants ∧ v.id = EnumVariantId.Val c.idVal ∧ v.name = c.typeName) := by
  refine ⟨by simp [genStructs], ?_, ?_, ?_⟩
  · have := genConsts_length_add variants
    omega
  · intro v hv n hvn
    exact List.mem_filterMap.mpr ⟨v, hv, by simp [hvn]⟩
  · intro c hc
    obtain ⟨v, hv, hfv⟩ := List.mem_filterMap.mp hc
    rcases hvid : v.id with m | _
    · rw [hvid] at hfv
      simp only [Option.some.injEq] at hfv
      subst hfv
      exact ⟨v, hv, by rw [hvid], rfl⟩
    · rw [hvid] at hfv
      cases hfv

/-- C8 witness: the three-case union `A: ID=1, B: ID=2, C: ID=_` yields 3
record types and 2 ID constants. -/
theorem record_generator_counts_witness :
    (genStructs [] ""
      [{ id := .Val 1, name := "A", fields := [] },
       { id := .Val 2, name := "B", fields := [] },
       { id := .Default, name := "C", fields := [] }]).length =
      ([{ id := .Val 1, name := "A", fields := [] },
        { id := .Val 2, name := "B", fields := [] },
        { id := .Default, name := "C", fields := [] }] : List EnumVariant).length ∧
    (genConsts
      [{ id := .Val 1, name := "A", fields := [] },
       { id := .Val 2, name := "B", fields := [] },
       { id := .Default, name := "C", fields := [] }]).length =
      ([{ id := .Val 1, name := "A", fields := [] },
        { id := .Val 2, name := "B", fields := [] },
        { id := .Default, name := "C", fields := [] }] : List EnumVariant).length - 1 :=
  ⟨(record_generator_counts [] ""
      [{ id := .Val 1, name := "A", fields := [] },
       { id := .Val 2, name := "B", fields := [] },
       { id := .Default, name := "C", fields := [] }] (by decide)).1,
   (record_generator_counts [] ""
      [{ id := .Val 1, name := "A", fields := [] },
       { id := .Val 2, name := "B", fields := [] },
       { id := .Default, name := "C", fields := [] }] (by decide)).2.1⟩

/-- C9: registering a union name that is already present in the registry
fails with the name-conflict SchemaError — for every registry state with
the name present, so in particular independently of whatever dispatch
requests are pending for that name (the pending queue is only consulted on
the success path). -/
theorem duplicate_registration_fails (struct_attrs : List EnumAttribute)
    (vis : String) (eattrs : List String) (ename : String)
    (raws : List SynVariant) (st : GlobalState) (parsed : List EnumVariant)
    (old : EnumRef)
    (hp : parseVariants vis raws = .ok parsed)
    (hdup : assocLookup st.enums ename = some old) :
    (enum_gen struct_attrs vis eattrs ename raws st).1 =
      .error (.SchemaError conflictMsg) := by
  rw [enum_gen_dup struct_attrs vis eattrs ename raws st parsed old hp hdup]

/-- C9 witness: re-registering `P` (with a pending dispatch queued under
`P`, exercising the independence from pending requests) fails with the
conflict SchemaError. -/
theorem duplicate_registration_fails_witness :
    (enum_gen [] "" [] "P"
      [⟨"A", [.list ["attr"] [.ident "ID", .punct '=', .lit "1"]], []⟩]
      ⟨[("P", { name := "P", variants := [] })],
       [("P", [{ match_by := .Id, fn_str := [.group "b"] }])]⟩).1 =
      .error (.SchemaError conflictMsg) :=
  duplicate_registration_fails [] "" [] "P"
    [⟨"A", [.list ["attr"] [.ident "ID", .punct '=', .lit "1"]], []⟩]
    ⟨[("P", { name := "P", variants := [] })],
     [("P", [{ match_by := .Id, fn_str := [.group "b"] }])]⟩
    [{ id := .Val 1, name := "A", fields := [] }]
    { name := "P", variants := [] } (by decide) (by decide)

/-- C10: the duplicate-name abort is not atomic — at the moment the
conflict error is raised, the registry already maps the name to the *new*
union definition: the `HashMap::insert` that detects the conflict has
replaced the previous `EnumRef` and the panic does not roll it back. -/
theorem duplicate_registration_overwrites (struct_attrs : List EnumAttribute)
    (vis : String) (eattrs : List String) (ename : String)
    (raws : List SynVariant) (st : GlobalState) (parsed : List EnumVariant)
    (old : EnumRef)
    (hp : parseVariants vis raws = .ok parsed)
    (hdup : assocLookup st.enums ename = some old) :
    (enum_gen struct_attrs vis eattrs ename raws st).1 =
      .error (.SchemaError conflictMsg) ∧
    assocLookup (enum_gen struct_attrs vis eattrs ename raws st).2.enums ename =
      some { name := ename
             variants := parsed.map fun v => { id := v.id, name := v.name } } := by
  rw [enum_gen_dup struct_attrs vis eattrs ename raws st parsed old hp hdup]
  exact ⟨rfl, assocLookup_insert_self st.enums ename _⟩

/-- C10 witness: after the failed re-registration of `P` (previously
registered with no variants), the registry holds the new one-variant
definition of `P`, not the old one. -/
theorem duplicate_registration_overwrites_witness :
    (enum_gen [] "" [] "P"
      [⟨"A", [.list ["attr"] [.ident "ID", .punct '=', .lit "1"]], []⟩]
      ⟨[("P", { name := "P", variants := [] })], []⟩).1 =
      .error (.SchemaError conflictMsg) ∧
    assocLookup (enum_gen [] "" [] "P"
      [⟨"A", [.list ["attr"] [.ident "ID", .punct '=', .lit "1"]], []⟩]
      ⟨[("P", { name := "P", variants := [] })], []⟩).2.enums "P" =
      some { name := "P", variants := [{ id := .Val 1, name := "A" }] } :=
  duplicate_registration_overwrites [] "" [] "P"
    [⟨"A", [.list ["attr"] [.ident "ID", .punct '=', .lit "1"]], []⟩]
    ⟨[("P", { name := "P", variants := [] })], []⟩
    [{ id := .Val 1, name := "A", fields := [] }]
    { name := "P", variants := [] } (by decide) (by decide)

/-- C4: the claim says *any* per-case attribute beyond the single `attr`
block is rejected with an UnsupportedError, but the guard in
`TryFrom<Variant>` is `attrs.len() > 1` *after* the `attr` block has been
removed: a case carrying exactly one extra attribute is accepted — the
extra attribute is silently discarded — and only two or more extra
attributes are rejected. Evaluated here at the failing input
(`#[attr(ID = 1)]` plus one extra attribute) and, for contrast, at the
two-extra-attribute input that does fail. -/
theorem single_extra_attribute_accepted :
    EnumVariant.tryFrom
        { ident := "Hello"
          attrs := [.list ["attr"] [.ident "ID", .punct '=', .lit "1"],
                    .other "derive(Clone)"]
          fields := [] } =
      .ok { id := .Val 1, name := "Hello", fields := [] } ∧
    EnumVariant.tryFrom
        { ident := "Hello"
          attrs := [.list ["attr"] [.ident "ID", .punct '=', .lit "1"],
                    .other "derive(Clone)", .other "serde(skip)"]
          fields := [] } =
      .error (.UnsupportedError
        "Currently additional variant attributes are not supported") := by
  decide

/-- C1, evaluated at the failing input. Union `P = A: ID=1, C: ID=_`;
dispatch request `fn f (id) b` issued first. The three conjuncts show:
(1) the pre-registration dispatch call emits the empty stream and queues
the request; (2) registering `P` then drains the queue and the Matcher
computes exactly the expansion `mf` — but `mf` appears only in the model's
`flushed` ghost field, because the source drops the stream returned by each
`enum_gen_match_with_enum` call in the drain loop (src/lib.rs lines
514-516) instead of appending it to `ret_stream`, so the emitted output of
the request-then-register sequence contains no dispatch function at all;
(3) the same dispatch request issued after registration emits exactly that
`mf` — i.e. the code computes the identical stream the claim demands but
never outputs it in the deferred scenario. -/
theorem pending_dispatch_output_dropped :
    enum_gen_match_id "P"
        [.other "fn", .other "f", .group "(id)", .group "b"] ⟨[], []⟩ =
      .ok (none,
        ⟨[], [("P", [{ match_by := .Id
                       fn_str := [.other "fn", .other "f", .group "(id)",
                                  .group "b"] }])]⟩) ∧
    ((enum_gen [] "" [] "P"
        [⟨"A", [.list ["attr"] [.ident "ID", .punct '=', .lit "1"]], []⟩,
         ⟨"C", [.list ["attr"] [.ident "ID", .punct '=', .ident "_"]], []⟩]
        ⟨[], [("P", [{ match_by := .Id
                       fn_str := [.other "fn", .other "f", .group "(id)",
                                  .group "b"] }])]⟩).1.map
      EnumGenOutput.flushed) =
      .ok [{ header := [.other "fn", .other "f", .group "(id)"]
             scrutinee := .Id
             arms := [{ pattern := .byId (.Val 1), useStructType := "A"
                        useVariantType := ("P", "A"), body := "b" },
                      { pattern := .byId .Default, useStructType := "C"
                        useVariantType := ("P", "C"), body := "b" }] }] ∧
    ((enum_gen_match_id "P"
        [.other "fn", .other "f", .group "(id)", .group "b"]
        (enum_gen [] "" [] "P"
          [⟨"A", [.list ["attr"] [.ident "ID", .punct '=', .lit "1"]], []⟩,
           ⟨"C", [.list ["attr"] [.ident "ID", .punct '=', .ident "_"]], []⟩]
          ⟨[], [("P", [{ match_by := .Id
                         fn_str := [.other "fn", .other "f", .group "(id)",
                                    .group "b"] }])]⟩).2).map
      Prod.fst) =
      .ok (some { header := [.other "fn", .other "f", .group "(id)"]
                  scrutinee := .Id
                  arms := [{ pattern := .byId (.Val 1), useStructType := "A"
                             useVariantType := ("P", "A"), body := "b" },
                           { pattern := .byId .Default, useStructType := "C"
                             useVariantType := ("P", "C"), body := "b" }] }) := by
  decide

end EnumGen
